import Mathlib

set_option maxRecDepth 4000

/-!
Verification development for the influence-flow repository: a two-stage
scraper (listing collector and profile extractor) feeding a CSV-to-SQL
record transformer.  The Python sources are shallowly embedded below:
strings are modelled as Lean strings (lists of characters), the regular
expressions of the source are translated into executable recognizers, and
each loop becomes a fold or structural recursion.  Regex digit classes are
modelled over ASCII digits, and Python strip over the whitespace test of
Lean characters.
-/

/- ## String helpers modelling Python primitives -/

/-- The apostrophe character, built from its code point so it can appear
inside generated SQL literals. -/
def squote : Char := Char.ofNat 39

/-- Model of Python str.strip: remove whitespace from both ends. -/
def pyStrip (s : String) : String :=
  ⟨((s.data.dropWhile Char.isWhitespace).reverse.dropWhile Char.isWhitespace).reverse⟩

/-- Model of Python str.upper over the characters of the string. -/
def pyUpper (s : String) : String := ⟨s.data.map Char.toUpper⟩

/-- Model of Python str.lower over the characters of the string. -/
def pyLower (s : String) : String := ⟨s.data.map Char.toLower⟩

/-- Whether needle occurs as a contiguous run inside hay, as in the Python
membership test on strings. -/
def containsSub (needle : List Char) : List Char → Bool
  | [] => needle.isEmpty
  | c :: rest => needle.isPrefixOf (c :: rest) || containsSub needle rest

/-- String-level wrapper for the substring test. -/
def strContains (hay needle : String) : Bool := containsSub needle.data hay.data

/-- Model of Python str.startswith. -/
def pyStartsWith (s p : String) : Bool := p.data.isPrefixOf s.data

/- ## Follower-count recognizer, from clean_followers in
scrape_influencers.py.  The source tests the stripped text against the
anchored regex of one or more digits or commas, an optional decimal
fraction, and an optional magnitude letter. -/

/-- Character class of the leading regex bracket: digit or comma. -/
def isDigitComma (c : Char) : Bool := c.isDigit || c == ','

/-- The four accepted magnitude letters. -/
def isMagnitude (c : Char) : Bool := c == 'k' || c == 'K' || c == 'm' || c == 'M'

/-- Accepts the residue after digits and fraction: empty, or exactly one
magnitude letter. -/
def tailOk : List Char → Bool
  | [] => true
  | [c] => isMagnitude c
  | _ :: _ :: _ => false

/-- Accepts the residue after the leading digit-or-comma block: an optional
decimal fraction followed by the magnitude residue. -/
def fracCheck : List Char → Bool
  | [] => true
  | c :: r2 =>
    if c == '.' then
      !(r2.takeWhile Char.isDigit).isEmpty && tailOk (r2.dropWhile Char.isDigit)
    else tailOk (c :: r2)

/-- Executable translation of the anchored follower-count regex from
clean_followers. -/
def matchFollowers (t : List Char) : Bool :=
  !(t.takeWhile isDigitComma).isEmpty && fracCheck (t.dropWhile isDigitComma)

/-- Translation of clean_followers: strip, return the stripped text when
the regex matches the whole of it, otherwise return the empty string. -/
def clean_followers (s : String) : String :=
  if matchFollowers (pyStrip s).data then pyStrip s else ("")

/- ## Declarative reading of the follower-count pattern, written from the
wording of the specification: one or more digits or commas, then an
optional decimal fraction, then an optional single magnitude letter,
consuming the whole string. -/

/-- The optional decimal-fraction block of the pattern. -/
def FracPart (b : List Char) : Prop :=
  b = [] ∨ ∃ d, b = '.' :: d ∧ d ≠ [] ∧ ∀ x ∈ d, x.isDigit = true

/-- The optional magnitude-letter block of the pattern. -/
def MagPart (c : List Char) : Prop :=
  c = [] ∨ c = ['k'] ∨ c = ['K'] ∨ c = ['m'] ∨ c = ['M']

/-- Declarative whole-string follower-count pattern. -/
def SpecFollowerPattern (t : List Char) : Prop :=
  ∃ a b c, t = a ++ b ++ c ∧ a ≠ [] ∧ (∀ x ∈ a, isDigitComma x = true) ∧
    FracPart b ∧ MagPart c

/- ## Bio extraction, from the bio section of the profile loop in
scrape_influencers.py.  Paragraph texts are modelled after extraction, that
is as the stripped text of each paragraph element, listed per content
container in document order. -/

/-- Character class of the bio-shape regex bracket: digit, comma or dot. -/
def isDigitCommaDot (c : Char) : Bool := c.isDigit || c == ',' || c == '.'

/-- Executable translation of the anchored bio-shape regex: one or more
digits, commas or dots followed by an optional magnitude letter. -/
def bioShape (t : List Char) : Bool :=
  !(t.takeWhile isDigitCommaDot).isEmpty && tailOk (t.dropWhile isDigitCommaDot)

/-- The paragraph filter of the bio loop: keep a paragraph text when it is
non-empty, its uppercased form contains none of the four banned words, and
it is not a bare follower-shaped token. -/
def keepPara (text : String) : Bool :=
  if text = "" then false
  else if strContains (pyUpper text) ("TIKTOK")
      || strContains (pyUpper text) ("INSTAGRAM") then false
  else if strContains (pyUpper text) ("FOLLOWERS")
      || strContains (pyUpper text) ("CONTACT") then false
  else if bioShape text.data then false
  else true

/-- The nested loop of the bio section, collecting surviving paragraph
texts across all content containers in document order. -/
def bioParagraphs (divs : List (List String)) : List String :=
  divs.foldl (fun acc ps =>
    ps.foldl (fun acc2 text => if keepPara text then acc2 ++ [text] else acc2) acc) []

/-- The bio string: the first five surviving paragraphs joined with single
spaces. -/
def bioText (divs : List (List String)) : String :=
  String.intercalate (" ") ((bioParagraphs divs).take 5)

/- ## Record transformer, from generate_sql.py and generate_sql_lines.py -/

/-- One CSV row as written by the scraper and read back by the
transformers, in the column order of the tabular file. -/
structure CsvRow where
  name : String
  pageUrl : String
  imageUrl : String
  bio : String
  instagram : String
  instagramFollowers : String
  tiktok : String
  tiktokFollowers : String

/-- One-character string holding the single quote. -/
def sqs : String := ⟨[squote]⟩

/-- SQL single-quote doubling over the characters of a field, modelling the
quote replacement applied to every textual field. -/
def sqlEscapeChars : List Char → List Char
  | [] => []
  | c :: t =>
    if c = squote then squote :: squote :: sqlEscapeChars t
    else c :: sqlEscapeChars t

/-- String-level wrapper of the quote doubling. -/
def sqlEscape (s : String) : String := ⟨sqlEscapeChars s.data⟩

/-- The constant owner identifier of both generator scripts. -/
def user_id : String := "eff94470-6759-4490-9c94-8277546e8ea9"

/-- The destination column list of generate_sql.py. -/
def columns : List String :=
  ["user_id", "name", "category", "status", "avatar_url", "instagram_handle",
   "followers", "tiktok_handle", "tiktok_followers", "source_url", "bio"]

/-- The destination column list of generate_sql_lines.py. -/
def columnsLines : List String :=
  ["user_id", "name", "category", "status", "avatar_url", "instagram_handle",
   "followers", "tiktok_handle", "tiktok_followers", "source_url", "bio"]

/-- Category inference of generate_sql.py, applied to the escaped source
URL: the default overridden by the first matching substring in the fixed
priority order. -/
def inferCategory (source_url : String) : String :=
  if strContains source_url ("sports") then ("Sports")
  else if strContains source_url ("beauty") then ("Beauty")
  else if strContains source_url ("fashion") then ("Fashion")
  else if strContains source_url ("food") then ("Food")
  else if strContains source_url ("lifestyle") then ("Lifestyle")
  else ("Influencer")

/-- Category inference of generate_sql_lines.py, a second copy of the same
chain. -/
def inferCategoryLines (source_url : String) : String :=
  if strContains source_url ("sports") then ("Sports")
  else if strContains source_url ("beauty") then ("Beauty")
  else if strContains source_url ("fashion") then ("Fashion")
  else if strContains source_url ("food") then ("Food")
  else if strContains source_url ("lifestyle") then ("Lifestyle")
  else ("Influencer")

/-- The per-row value tuple of generate_sql.py: every textual field quote
doubled, the owner identifier and the active status injected, the category
inferred from the escaped source URL. -/
def valStrMulti (r : CsvRow) : String :=
  let name := sqlEscape r.name
  let source_url := sqlEscape r.pageUrl
  let avatar_url := sqlEscape r.imageUrl
  let bio := sqlEscape r.bio
  let ig_handle := sqlEscape r.instagram
  let ig_followers := sqlEscape r.instagramFollowers
  let tt_handle := sqlEscape r.tiktok
  let tt_followers := sqlEscape r.tiktokFollowers
  let category := inferCategory source_url
  let status := "active"
  "(" ++ sqs ++ user_id ++ sqs ++ ", " ++ sqs ++ name ++ sqs ++ ", "
    ++ sqs ++ category ++ sqs ++ ", " ++ sqs ++ status ++ sqs ++ ", "
    ++ sqs ++ avatar_url ++ sqs ++ ", " ++ sqs ++ ig_handle ++ sqs ++ ", "
    ++ sqs ++ ig_followers ++ sqs ++ ", " ++ sqs ++ tt_handle ++ sqs ++ ", "
    ++ sqs ++ tt_followers ++ sqs ++ ", " ++ sqs ++ source_url ++ sqs ++ ", "
    ++ sqs ++ bio ++ sqs ++ ")"

/-- The per-row value tuple of generate_sql_lines.py. -/
def valStrLines (r : CsvRow) : String :=
  let name := sqlEscape r.name
  let source_url := sqlEscape r.pageUrl
  let avatar_url := sqlEscape r.imageUrl
  let bio := sqlEscape r.bio
  let ig_handle := sqlEscape r.instagram
  let ig_followers := sqlEscape r.instagramFollowers
  let tt_handle := sqlEscape r.tiktok
  let tt_followers := sqlEscape r.tiktokFollowers
  let category := inferCategoryLines source_url
  let status := "active"
  "(" ++ sqs ++ user_id ++ sqs ++ ", " ++ sqs ++ name ++ sqs ++ ", "
    ++ sqs ++ category ++ sqs ++ ", " ++ sqs ++ status ++ sqs ++ ", "
    ++ sqs ++ avatar_url ++ sqs ++ ", " ++ sqs ++ ig_handle ++ sqs ++ ", "
    ++ sqs ++ ig_followers ++ sqs ++ ", " ++ sqs ++ tt_handle ++ sqs ++ ", "
    ++ sqs ++ tt_followers ++ sqs ++ ", " ++ sqs ++ source_url ++ sqs ++ ", "
    ++ sqs ++ bio ++ sqs ++ ")"

/-- The deletion statement both scripts print first. -/
def deleteStmt : String := "DELETE FROM public.talents;"

/-- Printed output of generate_sql.py: the deletion statement, then one
multi-row insertion statement. -/
def outputMulti (rows : List CsvRow) : List String :=
  [deleteStmt,
   "INSERT INTO public.talents (" ++ String.intercalate (", ") columns
     ++ ") VALUES " ++ String.intercalate (",\n") (rows.map valStrMulti) ++ ";"]

/-- Printed output of generate_sql_lines.py: the deletion statement, then
one insertion statement per row. -/
def outputLines (rows : List CsvRow) : List String :=
  deleteStmt :: rows.map (fun r =>
    "INSERT INTO public.talents (" ++ String.intercalate (", ") columnsLines
      ++ ") VALUES " ++ valStrLines r ++ ";")

/-- The priority rule table of the category inference, written from the
specification wording. -/
def priorityRules : List (String × String) :=
  [("sports", "Sports"), ("beauty", "Beauty"), ("fashion", "Fashion"),
   ("food", "Food"), ("lifestyle", "Lifestyle")]

/-- Declarative category inference: the category of the first rule whose
keyword occurs in the URL, and the default when none matches. -/
def categorySpec (u : String) : String :=
  match priorityRules.find? (fun pr => strContains u pr.1) with
  | some pr => pr.2
  | none => "Influencer"

/-- The end-to-end scenario row of the specification. -/
def janeRow : CsvRow :=
  ⟨"Jane Doe", "https://example.com/talent/jane-doe-sports-fan", "", "",
   "https://instagram.com/janedoe", "12.3k", "", ""⟩

/- ## Per-platform handle and follower extraction, from the socials loop
of scrape_influencers.py -/

/-- A following sibling in the walk: either an element carrying its
extracted stripped text, or a plain text node carrying its raw value. -/
inductive SibNode where
  | elem (text : String)
  | textNode (raw : String)

/-- The text tested for one sibling: the extracted text of an element, or
the stripped value of a plain text node. -/
def stextOf : SibNode → String
  | SibNode.elem t => t
  | SibNode.textNode r => pyStrip r

/-- The sibling walk: test each sibling text against the recognizer, stop
with the first match, and stop without a match once a sibling text exceeds
twenty characters. -/
def walkSiblings : List SibNode → String
  | [] => ""
  | n :: rest =>
    if clean_followers (stextOf n) ≠ "" then clean_followers (stextOf n)
    else if (stextOf n).length > 20 then ("")
    else walkSiblings rest

/-- An anchor of the profile page: its raw href, the optional plain-text
immediate next sibling, and the following siblings of its parent when the
parent exists. -/
structure PageAnchor where
  href : String
  nextSib : Option String
  parentSibs : Option (List SibNode)

/-- The near-anchor follower search: first the immediate next sibling when
it is a non-empty plain text node, then the sibling walk from the parent. -/
def findNear (a : PageAnchor) : String :=
  let viaNext :=
    match a.nextSib with
    | some s => if s ≠ "" then clean_followers s else ("")
    | none => ""
  if viaNext ≠ "" then viaNext
  else
    match a.parentSibs with
    | some sibs => walkSiblings sibs
    | none => ""

/-- Instagram domain matcher over the lowercased href. -/
def igMatch (href : String) : Bool := strContains (pyLower href) ("instagram.com")

/-- TikTok domain matcher over the lowercased href. -/
def ttMatch (href : String) : Bool := strContains (pyLower href) ("tiktok.com")

/-- The four accumulator variables of the socials loop. -/
structure SocState where
  igHandle : String
  igFollowers : String
  ttHandle : String
  ttFollowers : String

/-- The Instagram branch of one loop iteration. -/
def igStepF (st : SocState) (a : PageAnchor) : SocState :=
  if igMatch a.href then
    if st.igFollowers = "" then
      if findNear a ≠ "" then { st with igFollowers := findNear a, igHandle := a.href }
      else if st.igHandle = "" then { st with igHandle := a.href }
      else st
    else st
  else st

/-- The TikTok branch of one loop iteration. -/
def ttStepF (st : SocState) (a : PageAnchor) : SocState :=
  if ttMatch a.href then
    if st.ttFollowers = "" then
      if findNear a ≠ "" then { st with ttFollowers := findNear a, ttHandle := a.href }
      else if st.ttHandle = "" then { st with ttHandle := a.href }
      else st
    else st
  else st

/-- One iteration of the socials loop over one anchor: the Instagram
branch followeded by the TikTok branch. -/
def stepSocial (st : SocState) (a : PageAnchor) : SocState :=
  ttStepF (igStepF st a) a

/-- The socials loop over all anchors of the page, starting from empty
accumulators. -/
def socialsOf (anchors : List PageAnchor) : SocState :=
  anchors.foldl stepSocial ⟨"", "", "", ""⟩

/-- Generic one-platform step on a handle and follower pair. -/
def platStep (m : String → Bool) (st : String × String) (a : PageAnchor) :
    String × String :=
  if m a.href then
    if st.2 = "" then
      if findNear a ≠ "" then (a.href, findNear a)
      else if st.1 = "" then (a.href, st.2)
      else st
    else st
  else st

/-- Declarative per-platform result: the pair of the first matching anchor
near which a follower count is found, otherwise the first matching anchor
as a bare-handle fallback with empty followers, otherwise both empty. -/
def platSpec (m : String → Bool) (anchors : List PageAnchor) : String × String :=
  match (anchors.filter (fun a => m a.href)).find? (fun a => findNear a != "") with
  | some k => (k.href, findNear k)
  | none =>
    match anchors.filter (fun a => m a.href) with
    | [] => ("", "")
    | a :: _ => (a.href, "")

/-- Generalization of the declarative result to an arbitrary handle
already held when the scan starts. -/
def platSpecFrom (m : String → Bool) (h0 : String) (anchors : List PageAnchor) :
    String × String :=
  match (anchors.filter (fun a => m a.href)).find? (fun a => findNear a != "") with
  | some k => (k.href, findNear k)
  | none =>
    match anchors.filter (fun a => m a.href) with
    | [] => (h0, "")
    | a :: _ => (if h0 = "" then a.href else h0, "")

/- ## Listing collector, from the listing loop of scrape_influencers.py -/

/-- Fueled worker for the replace-with-empty model of Python str.replace:
leftmost non-overlapping removal of the pattern.  The fuel starts at the
length of the subject and never runs out, since every step consumes at
least one character. -/
def removeAllGo (pat : List Char) : Nat → List Char → List Char
  | _, [] => []
  | 0, s => s
  | Nat.succ f, c :: rest =>
    if !pat.isEmpty && pat.isPrefixOf (c :: rest) then
      removeAllGo pat f ((c :: rest).drop pat.length)
    else c :: removeAllGo pat f rest

/-- Model of the Python replace of a pattern with the empty string. -/
def pyRemoveAll (pat : List Char) (s : List Char) : List Char :=
  removeAllGo pat s.length s

/-- The configured origin of the scraper. -/
def base_url : String := "https://www.liquorice.co.nz"

/-- The path of a resolved URL as the source computes it: every occurrence
of the origin replaced by the empty string. -/
def pathOf (fullUrl : String) : String := ⟨pyRemoveAll base_url.data fullUrl.data⟩

/-- The fixed denylist of known non-profile paths. -/
def denylist : List String :=
  ["", "/", "/influencers-nz", "/contact", "/who-are-we",
   "/how-influencer-marketing-works"]

/-- An ancestor element of an anchor: tag name and optional id attribute. -/
structure ParentTag where
  name : String
  id : Option String

/-- An image element inside an anchor: its lazy-load and standard source
attributes. -/
structure ImgTag where
  dataSrc : Option String
  src : Option String

/-- An anchor of the listing page: raw href, its resolved absolute URL
(resolution against the origin is done by the URL library and taken as
given), its ancestor chain, and its embedded image when present. -/
structure ListAnchor where
  href : String
  fullUrl : String
  parents : List ParentTag
  img : Option ImgTag

/-- The header, footer and navigation ancestor check of the listing loop. -/
def isNavFooter (ps : List ParentTag) : Bool :=
  ps.any (fun p =>
    (p.name == "header" || p.name == "footer" || p.name == "nav")
    || (match p.id with
        | some i => i == "header" || i == "footer" || i == "mobileNav"
        | none => false))

/-- Pythonic or of two optional attribute values: the first when it is
truthy, otherwise the second. -/
def pyOr (a b : Option String) : Option String :=
  match a with
  | some s => if s = "" then b else some s
  | none => b

/-- Protocol-relative normalization of an image source. -/
def normalizeProto (s : String) : String :=
  if pyStartsWith s ("//") then ("https:") ++ s else s

/-- Dictionary assignment preserving insertion order: an existing key is
updated in place, a new key is appended. -/
def dictInsert (m : List (String × String)) (k v : String) : List (String × String) :=
  if m.any (fun p => p.1 == k) then
    m.map (fun p => if p.1 == k then (k, v) else p)
  else m ++ [(k, v)]

/-- One iteration of the listing loop: the source filters applied in
order, then the image lookup and the mapping update. -/
def processAnchor (m : List (String × String)) (a : ListAnchor) :
    List (String × String) :=
  if pyStartsWith a.fullUrl base_url then
    if denylist.contains (pathOf a.fullUrl) then m
    else if strContains a.href ("mailto:") || strContains a.href ("tel:") then m
    else if isNavFooter a.parents then m
    else
      match a.img with
      | none => m
      | some img =>
        match pyOr img.dataSrc img.src with
        | none => m
        | some s => if s = "" then m else dictInsert m a.fullUrl (normalizeProto s)
  else m

/- ## Profile record construction and fetch outcomes -/

/-- One profile page as parsed: the optional first level-1 heading text,
the paragraph texts per content container, and the anchors of the page. -/
structure ProfilePage where
  h1 : Option String
  contentDivs : List (List String)
  anchors : List PageAnchor

/-- One extracted record, in the field order of the scraper. -/
structure ProfileRecord where
  name : String
  pageUrl : String
  bio : String
  instagram : String
  instagramFollowers : String
  tiktok : String
  tiktokFollowers : String
  imageUrl : String

/-- Name extraction: the text of the first level-1 heading, with the
literal placeholder fallback when the page has none. -/
def extractName : Option String → String
  | some t => t
  | none => "Unknown"

/-- The record built from one successfully fetched profile page. -/
def extractRecord (url imageUrl : String) (page : ProfilePage) : ProfileRecord :=
  ⟨extractName page.h1, url, bioText page.contentDivs,
   (socialsOf page.anchors).igHandle, (socialsOf page.anchors).igFollowers,
   (socialsOf page.anchors).ttHandle, (socialsOf page.anchors).ttFollowers,
   imageUrl⟩

/-- Outcome of fetching one candidate page: a parsed page, or a failure
covering non-success statuses and exceptions. -/
inductive FetchOutcome where
  | success (page : ProfilePage)
  | failure

/-- Processing of one candidate: a successful fetch always yields one
record, a failure yields none and the loop continues. -/
def processCandidate (url imageUrl : String) : FetchOutcome → Option ProfileRecord
  | FetchOutcome.success page => some (extractRecord url imageUrl page)
  | FetchOutcome.failure => none

/-! ### Lemmas and claim theorems -/

/- ## Equivalence of the executable recognizer with the declarative
pattern -/
lemma tailOk_iff (l : List Char) : tailOk l = true ↔ MagPart l := by
  match l with
  | [] => simp [tailOk, MagPart]
  | [c] =>
    simp only [tailOk, MagPart, isMagnitude, Bool.or_eq_true, beq_iff_eq,
      List.cons.injEq, and_true, List.cons_ne_nil, false_or]
    tauto
  | a :: b :: t => simp [tailOk, MagPart]

lemma fracCheck_iff (r : List Char) :
    fracCheck r = true ↔ ∃ b c, r = b ++ c ∧ FracPart b ∧ MagPart c := by
  constructor
  · intro h
    match r with
    | [] => exact ⟨[], [], rfl, Or.inl rfl, Or.inl rfl⟩
    | x :: r2 =>
      by_cases hx : x = '.'
      · subst hx
        simp only [fracCheck, beq_self_eq_true, if_pos, Bool.and_eq_true,
          Bool.not_eq_true', List.isEmpty_eq_false] at h
        obtain ⟨hd, htail⟩ := h
        refine ⟨'.' :: r2.takeWhile Char.isDigit, r2.dropWhile Char.isDigit,
          ?_, Or.inr ⟨r2.takeWhile Char.isDigit, rfl, hd, ?_⟩,
          (tailOk_iff _).mp htail⟩
        · simp [List.takeWhile_append_dropWhile]
        · intro x hx
          exact List.mem_takeWhile_imp hx
      · have hx2 : (x == '.') = false := by simp [hx]
        simp only [fracCheck, hx2, if_neg, Bool.false_eq_true] at h
        have hmag : MagPart (x :: r2) := (tailOk_iff _).mp h
        exact ⟨[], x :: r2, rfl, Or.inl rfl, hmag⟩
  · rintro ⟨b, c, rfl, hb, hc⟩
    rcases hb with rfl | ⟨d, rfl, hd, hdig⟩
    · simp only [List.nil_append]
      rcases hc with rfl | rfl | rfl | rfl | rfl <;> decide
    · have hdig2 : ∀ a ∈ d, Char.isDigit a := fun a ha => hdig a ha
      have htw : (d ++ c).takeWhile Char.isDigit = d ++ c.takeWhile Char.isDigit :=
        List.takeWhile_append_of_pos hdig2
      have hdw : (d ++ c).dropWhile Char.isDigit = c.dropWhile Char.isDigit :=
        List.dropWhile_append_of_pos hdig2
      have hc1 : c.takeWhile Char.isDigit = [] := by
        rcases hc with rfl | rfl | rfl | rfl | rfl <;> decide
      have hc2 : c.dropWhile Char.isDigit = c := by
        rcases hc with rfl | rfl | rfl | rfl | rfl <;> decide
      have : ('.' :: d ++ c) = '.' :: (d ++ c) := by simp
      rw [this]
      simp only [fracCheck, beq_self_eq_true, if_pos, Bool.and_eq_true,
        Bool.not_eq_true', List.isEmpty_eq_false]
      refine ⟨?_, ?_⟩
      · rw [htw, hc1, List.append_nil]
        exact hd
      · rw [hdw, hc2]
        exact (tailOk_iff _).mpr hc

lemma matchFollowers_iff (t : List Char) :
    matchFollowers t = true ↔ SpecFollowerPattern t := by
  constructor
  · intro h
    simp only [matchFollowers, Bool.and_eq_true, Bool.not_eq_true',
      List.isEmpty_eq_false] at h
    obtain ⟨ha, hfrac⟩ := h
    obtain ⟨b, c, hbc, hb, hc⟩ := (fracCheck_iff _).mp hfrac
    refine ⟨t.takeWhile isDigitComma, b, c, ?_, ha, ?_, hb, hc⟩
    · rw [List.append_assoc, ← hbc, List.takeWhile_append_dropWhile]
    · intro x hx
      exact List.mem_takeWhile_imp hx
  · rintro ⟨a, b, c, rfl, ha, hall, hb, hc⟩
    have hall2 : ∀ x ∈ a, isDigitComma x := fun x hx => hall x hx
    have hbc : (b ++ c).dropWhile isDigitComma = b ++ c := by
      rcases hb with rfl | ⟨d, rfl, hd, hdig⟩
      · simp only [List.nil_append]
        rcases hc with rfl | rfl | rfl | rfl | rfl <;> decide
      · have : (('.' :: d) ++ c) = '.' :: (d ++ c) := by simp
        rw [this]
        apply List.dropWhile_cons_of_neg
        decide
    have hassoc : a ++ b ++ c = a ++ (b ++ c) := List.append_assoc a b c
    rw [hassoc]
    simp only [matchFollowers, Bool.and_eq_true, Bool.not_eq_true',
      List.isEmpty_eq_false]
    refine ⟨?_, ?_⟩
    · rw [List.takeWhile_append_of_pos hall2]
      simp [ha]
    · rw [List.dropWhile_append_of_pos hall2, hbc]
      exact (fracCheck_iff _).mpr ⟨b, c, rfl, hb, hc⟩

/-- C1: the follower-count recognizer returns the trimmed form of the input
unchanged when the trimmed string matches the whole-string pattern of one
or more digits or commas, an optional decimal fraction, and an optional
single magnitude letter, and returns the empty string for every other
input. -/
theorem C1_clean_followers_spec (s : String) :
    (SpecFollowerPattern (pyStrip s).data → clean_followers s = pyStrip s) ∧
    (¬ SpecFollowerPattern (pyStrip s).data → clean_followers s = "") := by
  constructor
  · intro h
    unfold clean_followers
    rw [if_pos ((matchFollowers_iff _).mpr h)]
  · intro h
    unfold clean_followers
    rw [if_neg (fun hm => h ((matchFollowers_iff _).mp hm))]

/-- Witness for C1 at the concrete input of a 12.3k follower string with
surrounding whitespace. -/
theorem C1_clean_followers_spec_witness :
    SpecFollowerPattern (pyStrip (" 12.3k ")).data ∧
      clean_followers (" 12.3k ") = pyStrip (" 12.3k ") := by
  have hp : SpecFollowerPattern (pyStrip (" 12.3k ")).data := by
    refine ⟨['1', '2'], ['.', '3'], ['k'], by decide, by decide, by decide,
      Or.inr ⟨['3'], rfl, by decide, by decide⟩, Or.inr (Or.inl rfl)⟩
  exact ⟨hp, (C1_clean_followers_spec (" 12.3k ")).1 hp⟩

lemma foldl_keep_append (ps : List String) (acc : List String) :
    ps.foldl (fun acc2 text => if keepPara text then acc2 ++ [text] else acc2) acc
      = acc ++ ps.filter keepPara := by
  induction ps generalizing acc with
  | nil => simp
  | cons p ps ih =>
    simp only [List.foldl_cons, List.filter_cons]
    by_cases h : keepPara p
    · simp [h, ih]
    · simp [h, ih]

lemma bioParagraphs_general (divs : List (List String)) (acc : List String) :
    divs.foldl (fun acc ps =>
      ps.foldl (fun acc2 text => if keepPara text then acc2 ++ [text] else acc2) acc) acc
      = acc ++ divs.flatten.filter keepPara := by
  induction divs generalizing acc with
  | nil => simp
  | cons d ds ih =>
    rw [List.foldl_cons, foldl_keep_append, ih, List.flatten_cons,
      List.filter_append, List.append_assoc]

lemma containsSub_of_append (n x y : List Char) :
    containsSub n (x ++ n ++ y) = true := by
  induction x with
  | nil =>
    simp only [List.nil_append]
    match n with
    | [] => cases y <;> simp [containsSub]
    | c :: rest =>
      simp only [containsSub, List.cons_append, Bool.or_eq_true]
      left
      rw [List.isPrefixOf_iff_prefix]
      exact ⟨y, by simp⟩
  | cons a x ih =>
    simp only [List.cons_append, containsSub, Bool.or_eq_true]
    right
    exact ih

/-- C2 helper later reuses this: a paragraph whose characters contain a run
uppercasing to FOLLOWERS is rejected by the bio filter. -/
lemma keepPara_followers (t : String)
    (h : ∃ x w y, t.data = x ++ w ++ y ∧ w.map Char.toUpper = ("FOLLOWERS").data) :
    keepPara t = false := by
  obtain ⟨x, w, y, hxy, hw⟩ := h
  have hcon : strContains (pyUpper t) ("FOLLOWERS") = true := by
    unfold strContains pyUpper
    show containsSub _ (t.data.map Char.toUpper) = true
    rw [hxy, List.map_append, List.map_append, hw]
    exact containsSub_of_append _ _ _
  simp [keepPara, hcon]

/-- C3: the bio is built by scanning content containers in document order,
keeping exactly the paragraphs passing the emptiness, banned-word and
follower-shape filters, and joining the first five survivors with single
spaces; any paragraph containing the word FOLLOWERS in any letter case is
always rejected. -/
theorem C3_bio_extraction :
    (∀ divs : List (List String),
       bioText divs
         = String.intercalate (" ") ((divs.flatten.filter keepPara).take 5)) ∧
    (∀ t : String,
       (∃ x w y, t.data = x ++ w ++ y ∧ w.map Char.toUpper = ("FOLLOWERS").data) →
       keepPara t = false) := by
  constructor
  · intro divs
    unfold bioText bioParagraphs
    rw [bioParagraphs_general]
    simp
  · exact keepPara_followers

/-- Witness for C3 at a paragraph containing the word Followers in mixed
letter case. -/
theorem C3_bio_extraction_witness :
    (∃ x w y, ("Our FoLLoWeRs").data = x ++ w ++ y ∧
       w.map Char.toUpper = ("FOLLOWERS").data) ∧
    keepPara ("Our FoLLoWeRs") = false := by
  have h : ∃ x w y, ("Our FoLLoWeRs").data = x ++ w ++ y ∧
      w.map Char.toUpper = ("FOLLOWERS").data :=
    ⟨['O', 'u', 'r', ' '], ['F', 'o', 'L', 'L', 'o', 'W', 'e', 'R', 's'], [],
      by decide, by decide⟩
  exact ⟨h, C3_bio_extraction.2 ("Our FoLLoWeRs") h⟩

/-- C5: the two rendering modes are interchangeable: both outputs start
with the deletion statement, and the per-row value tuples agree for every
row sequence, since the two scripts share every field-mapping rule. -/
theorem C5_render_modes (rows : List CsvRow) :
    (outputMulti rows).head? = some deleteStmt ∧
    (outputLines rows).head? = some deleteStmt ∧
    rows.map valStrMulti = rows.map valStrLines ∧
    ∀ r : CsvRow, valStrMulti r = valStrLines r := by
  have h : valStrMulti = valStrLines := funext fun r => rfl
  exact ⟨rfl, rfl, by rw [h], fun r => rfl⟩

/-- C4: category inference returns the default Influencer and otherwise
the category of the first matching case-sensitive substring in the fixed
priority order; a URL containing both sports and beauty yields Sports and
never Beauty, and the result is always one of the six fixed categories. -/
theorem C4_category_inference :
    (∀ u : String, inferCategory u = categorySpec u) ∧
    (∀ u : String, strContains u ("sports") = true →
       strContains u ("beauty") = true →
       inferCategory u = "Sports" ∧ inferCategory u ≠ "Beauty") ∧
    (∀ u : String, inferCategory u = "Influencer" ∨ inferCategory u = "Sports"
       ∨ inferCategory u = "Beauty" ∨ inferCategory u = "Fashion"
       ∨ inferCategory u = "Food" ∨ inferCategory u = "Lifestyle") := by
  refine ⟨?_, ?_, ?_⟩
  · intro u
    unfold inferCategory categorySpec priorityRules
    by_cases h1 : strContains u ("sports") = true
    · simp [h1, List.find?]
    · by_cases h2 : strContains u ("beauty") = true
      · simp [h1, h2, List.find?]
      · by_cases h3 : strContains u ("fashion") = true
        · simp [h1, h2, h3, List.find?]
        · by_cases h4 : strContains u ("food") = true
          · simp [h1, h2, h3, h4, List.find?]
          · by_cases h5 : strContains u ("lifestyle") = true
            · simp [h1, h2, h3, h4, h5, List.find?]
            · simp [h1, h2, h3, h4, h5, List.find?]
  · intro u hs hb
    refine ⟨by simp [inferCategory, hs], ?_⟩
    simp only [inferCategory, hs, if_pos]
    decide
  · intro u
    unfold inferCategory
    split_ifs <;> simp

/-- Witness for C4 at a URL containing both the sports and the beauty
keywords. -/
theorem C4_category_inference_witness :
    strContains ("x-sports-beauty") ("sports") = true ∧
    strContains ("x-sports-beauty") ("beauty") = true ∧
    inferCategory ("x-sports-beauty") = "Sports" ∧
    inferCategory ("x-sports-beauty") ≠ "Beauty" := by
  refine ⟨by decide, by decide, ?_⟩
  exact C4_category_inference.2.1 ("x-sports-beauty") (by decide) (by decide)

/-- C6: the transformer doubles each single quote exactly once per textual
field and applies no other escaping: the escape is character-wise quote
doubling, the quote count exactly doubles, a name containing one quote
renders with exactly one doubled quote in the tuple, and the doubly
escaped form never appears. -/
theorem C6_sql_escaping :
    (∀ l : List Char, sqlEscapeChars l
        = l.flatMap (fun c => if c = squote then [squote, squote] else [c])) ∧
    (∀ l : List Char, (sqlEscapeChars l).count squote = 2 * l.count squote) ∧
    sqlEscape ("O" ++ sqs ++ "Brien") = "O" ++ sqs ++ sqs ++ "Brien" ∧
    strContains (valStrMulti ⟨"O" ++ sqs ++ "Brien", "", "", "", "", "", "", ""⟩)
        ("O" ++ sqs ++ sqs ++ "Brien") = true ∧
    strContains (valStrMulti ⟨"O" ++ sqs ++ "Brien", "", "", "", "", "", "", ""⟩)
        ("O" ++ sqs ++ sqs ++ sqs ++ sqs ++ "Brien") = false := by
  refine ⟨?_, ?_, by decide, by decide, by decide⟩
  · intro l
    induction l with
    | nil => rfl
    | cons c t ih =>
      by_cases h : c = squote
      · simp [sqlEscapeChars, h, ih]
      · simp [sqlEscapeChars, h, ih]
  · intro l
    induction l with
    | nil => rfl
    | cons c t ih =>
      by_cases h : c = squote
      · simp [sqlEscapeChars, h, ih, List.count_cons]
        omega
      · have hb : (c == squote) = false := by simp [h]
        simp [sqlEscapeChars, h, ih, List.count_cons, hb]

/-- C8: the scenario row transforms to a value tuple containing the quoted
name, the Sports category, the Instagram URL and the follower string. -/
theorem C8_end_to_end :
    strContains (valStrMulti janeRow) (sqs ++ "Jane Doe" ++ sqs) = true ∧
    strContains (valStrMulti janeRow) (sqs ++ "Sports" ++ sqs) = true ∧
    strContains (valStrMulti janeRow) (sqs ++ "https://instagram.com/janedoe" ++ sqs) = true ∧
    strContains (valStrMulti janeRow) (sqs ++ "12.3k" ++ sqs) = true := by
  refine ⟨by decide, by decide, by decide, by decide⟩

lemma platStep_absorb (m : String → Bool) (st : String × String) (a : PageAnchor)
    (h : st.2 ≠ "") : platStep m st a = st := by
  unfold platStep
  split_ifs <;> simp_all

lemma platFold_absorb (m : String → Bool) (l : List PageAnchor) :
    ∀ st : String × String, st.2 ≠ "" → l.foldl (platStep m) st = st := by
  induction l with
  | nil => intro st h; rfl
  | cons a l ih =>
    intro st h
    rw [List.foldl_cons, platStep_absorb m st a h]
    exact ih st h

lemma platFold_char (m : String → Bool) (l : List PageAnchor) :
    ∀ h0 : String, (∀ a ∈ l, m a.href = true → a.href ≠ "") →
      l.foldl (platStep m) (h0, "") = platSpecFrom m h0 l := by
  induction l with
  | nil => intro h0 hne; rfl
  | cons a l ih =>
    intro h0 hne
    have hne2 : ∀ x ∈ l, m x.href = true → x.href ≠ "" :=
      fun x hx => hne x (List.mem_cons_of_mem a hx)
    by_cases hm : m a.href = true
    · have hhref : a.href ≠ "" := hne a (List.mem_cons_self a l) hm
      have hfc : List.filter (fun x => m x.href) (a :: l)
          = a :: List.filter (fun x => m x.href) l := by
        simp [List.filter_cons, hm]
      by_cases hf : findNear a ≠ ""
      · have hstep : platStep m (h0, "") a = (a.href, findNear a) := by
          simp [platStep, hm, hf]
        rw [List.foldl_cons, hstep, platFold_absorb m l _ hf]
        have hfind_eq : List.find? (fun x : PageAnchor => findNear x != "")
            (a :: List.filter (fun x => m x.href) l) = some a := by
          have hb : (findNear a != "") = true := by simp [hf]
          simp [List.find?, hb]
        unfold platSpecFrom
        rw [hfc, hfind_eq]
      · push_neg at hf
        have hfind_eq : List.find? (fun x : PageAnchor => findNear x != "")
            (a :: List.filter (fun x => m x.href) l)
            = List.find? (fun x : PageAnchor => findNear x != "")
                (List.filter (fun x => m x.href) l) := by
          have hb : (findNear a != "") = false := by simp [hf]
          simp [List.find?, hb]
        have hstep : platStep m (h0, "") a = ((if h0 = "" then a.href else h0), "") := by
          by_cases h0e : h0 = "" <;> simp [platStep, hm, hf, h0e]
        rw [List.foldl_cons, hstep, ih _ hne2]
        unfold platSpecFrom
        rw [hfc, hfind_eq]
        cases hfind : (l.filter (fun x => m x.href)).find? (fun x => findNear x != "") with
        | some k => rfl
        | none =>
          cases hfl : l.filter (fun x => m x.href) with
          | nil => rfl
          | cons b bs =>
            by_cases h0e : h0 = ""
            · simp [h0e, hhref]
            · simp [h0e]
    · have hstep : platStep m (h0, "") a = (h0, "") := by simp [platStep, hm]
      have hfc : List.filter (fun x => m x.href) (a :: l)
          = List.filter (fun x => m x.href) l := by
        simp [List.filter_cons, hm]
      rw [List.foldl_cons, hstep, ih _ hne2]
      unfold platSpecFrom
      rw [hfc]

lemma platSpecFrom_empty (m : String → Bool) (l : List PageAnchor) :
    platSpecFrom m ("") l = platSpec m l := by
  unfold platSpecFrom platSpec
  cases (l.filter (fun a => m a.href)).find? (fun a => findNear a != "") with
  | some k => rfl
  | none =>
    cases l.filter (fun a => m a.href) with
    | nil => rfl
    | cons b bs => simp

lemma ttStepF_ig (st : SocState) (a : PageAnchor) :
    (ttStepF st a).igHandle = st.igHandle ∧ (ttStepF st a).igFollowers = st.igFollowers := by
  unfold ttStepF
  split_ifs <;> simp

lemma igStepF_tt (st : SocState) (a : PageAnchor) :
    (igStepF st a).ttHandle = st.ttHandle ∧ (igStepF st a).ttFollowers = st.ttFollowers := by
  unfold igStepF
  split_ifs <;> simp

lemma igStepF_pair (st : SocState) (a : PageAnchor) :
    ((igStepF st a).igHandle, (igStepF st a).igFollowers)
      = platStep igMatch (st.igHandle, st.igFollowers) a := by
  unfold igStepF platStep
  split_ifs <;> simp_all

lemma ttStepF_pair (st : SocState) (a : PageAnchor) :
    ((ttStepF st a).ttHandle, (ttStepF st a).ttFollowers)
      = platStep ttMatch (st.ttHandle, st.ttFollowers) a := by
  unfold ttStepF platStep
  split_ifs <;> simp_all

lemma socials_proj (l : List PageAnchor) :
    ∀ st : SocState,
      ((l.foldl stepSocial st).igHandle, (l.foldl stepSocial st).igFollowers)
          = l.foldl (platStep igMatch) (st.igHandle, st.igFollowers) ∧
      ((l.foldl stepSocial st).ttHandle, (l.foldl stepSocial st).ttFollowers)
          = l.foldl (platStep ttMatch) (st.ttHandle, st.ttFollowers) := by
  induction l with
  | nil => intro st; exact ⟨rfl, rfl⟩
  | cons a l ih =>
    intro st
    rw [List.foldl_cons, List.foldl_cons, List.foldl_cons]
    obtain ⟨ih1, ih2⟩ := ih (stepSocial st a)
    constructor
    · rw [ih1]
      have h1 : (stepSocial st a).igHandle = (igStepF st a).igHandle :=
        (ttStepF_ig _ _).1
      have h2 : (stepSocial st a).igFollowers = (igStepF st a).igFollowers :=
        (ttStepF_ig _ _).2
      rw [h1, h2]
      rw [show ((igStepF st a).igHandle, (igStepF st a).igFollowers)
            = platStep igMatch (st.igHandle, st.igFollowers) a from igStepF_pair st a]
    · rw [ih2]
      have h1 : (stepSocial st a).ttHandle = (ttStepF (igStepF st a) a).ttHandle := rfl
      have h2 : (igStepF st a).ttHandle = st.ttHandle := (igStepF_tt _ _).1
      have h3 : (igStepF st a).ttFollowers = st.ttFollowers := (igStepF_tt _ _).2
      have h4 := ttStepF_pair (igStepF st a) a
      rw [h2, h3] at h4
      rw [show stepSocial st a = ttStepF (igStepF st a) a from rfl, h4]

lemma igMatch_ne_empty (href : String) (h : igMatch href = true) : href ≠ "" := by
  intro hc
  subst hc
  revert h
  decide

lemma ttMatch_ne_empty (href : String) (h : ttMatch href = true) : href ≠ "" := by
  intro hc
  subst hc
  revert h
  decide

/-- C2: for each platform on one page, the recorded pair is the raw href
and count of the first platform-matching anchor near which a follower
count is found; when none is found, the handle falls back to the first
platform-matching anchor and the follower field stays empty; and once a
follower count is attached for a platform, later anchors never change
that platform's handle or count. -/
theorem C2_platform_pairs (anchors : List PageAnchor) :
    ((socialsOf anchors).igHandle, (socialsOf anchors).igFollowers)
        = platSpec igMatch anchors ∧
    ((socialsOf anchors).ttHandle, (socialsOf anchors).ttFollowers)
        = platSpec ttMatch anchors ∧
    (∀ (st : SocState) (l : List PageAnchor), st.igFollowers ≠ "" →
       (l.foldl stepSocial st).igHandle = st.igHandle ∧
       (l.foldl stepSocial st).igFollowers = st.igFollowers) ∧
    (∀ (st : SocState) (l : List PageAnchor), st.ttFollowers ≠ "" →
       (l.foldl stepSocial st).ttHandle = st.ttHandle ∧
       (l.foldl stepSocial st).ttFollowers = st.ttFollowers) := by
  refine ⟨?_, ?_, ?_, ?_⟩
  · have hp := (socials_proj anchors ⟨"", "", "", ""⟩).1
    unfold socialsOf
    rw [hp, platFold_char igMatch anchors ("")
      (fun a _ hm => igMatch_ne_empty a.href hm), platSpecFrom_empty]
  · have hp := (socials_proj anchors ⟨"", "", "", ""⟩).2
    unfold socialsOf
    rw [hp, platFold_char ttMatch anchors ("")
      (fun a _ hm => ttMatch_ne_empty a.href hm), platSpecFrom_empty]
  · intro st l h
    have hp := (socials_proj l st).1
    have habs := platFold_absorb igMatch l (st.igHandle, st.igFollowers) h
    rw [habs] at hp
    exact ⟨congrArg Prod.fst hp, congrArg Prod.snd hp⟩
  · intro st l h
    have hp := (socials_proj l st).2
    have habs := platFold_absorb ttMatch l (st.ttHandle, st.ttFollowers) h
    rw [habs] at hp
    exact ⟨congrArg Prod.fst hp, congrArg Prod.snd hp⟩

/-- Witness for C2: a state already holding an Instagram follower count is
left unchanged by a further matching anchor. -/
theorem C2_platform_pairs_witness :
    (SocState.mk ("h") ("9k") ("") ("")).igFollowers ≠ "" ∧
    ([PageAnchor.mk ("https://instagram.com/x") none none].foldl stepSocial
        (SocState.mk ("h") ("9k") ("") (""))).igHandle = "h" := by
  refine ⟨by decide, ?_⟩
  exact ((C2_platform_pairs []).2.2.1 (SocState.mk ("h") ("9k") ("") (""))
    [PageAnchor.mk ("https://instagram.com/x") none none] (by decide)).1

/-- C10: in the sibling walk each sibling text is tested against the
recognizer before the twenty-character cutoff: a sibling whose text both
matches and exceeds twenty characters is accepted, and the cutoff only
ends the walk when the text does not match. -/
theorem C10_sibling_walk (pre : List SibNode) (n : SibNode) (rest : List SibNode)
    (hpre : ∀ x ∈ pre, clean_followers (stextOf x) = "" ∧ (stextOf x).length ≤ 20) :
    (clean_followers (stextOf n) ≠ "" →
       walkSiblings (pre ++ n :: rest) = clean_followers (stextOf n)) ∧
    (clean_followers (stextOf n) = "" → (stextOf n).length > 20 →
       walkSiblings (pre ++ n :: rest) = "") := by
  induction pre with
  | nil =>
    constructor
    · intro h
      simp [walkSiblings, h]
    · intro h1 h2
      simp [walkSiblings, h1, h2]
  | cons x pre ih =>
    have hx := hpre x (List.mem_cons_self x pre)
    have hpre2 : ∀ y ∈ pre, clean_followers (stextOf y) = "" ∧ (stextOf y).length ≤ 20 :=
      fun y hy => hpre y (List.mem_cons_of_mem x hy)
    have hstep : walkSiblings ((x :: pre) ++ n :: rest) = walkSiblings (pre ++ n :: rest) := by
      have hlen : ¬((stextOf x).length > 20) := by omega
      simp [walkSiblings, hx.1, hlen]
    rw [hstep]
    exact ih hpre2

/-- Witness for C10 at a sibling whose text is twenty-one digits: it
matches the recognizer and exceeds the cutoff, yet is accepted. -/
theorem C10_sibling_walk_witness :
    clean_followers ("111111111111111111111") ≠ "" ∧
    ("111111111111111111111").length > 20 ∧
    walkSiblings [SibNode.elem ("111111111111111111111")]
      = clean_followers ("111111111111111111111") := by
  refine ⟨by decide, by decide, ?_⟩
  exact (C10_sibling_walk [] (SibNode.elem ("111111111111111111111")) []
    (by simp)).1 (by decide)

/-- C7: the listing collector excludes every anchor resolving to the
literal influencers-nz path and every anchor without an embedded image,
and an anchor passing all filters contributes exactly one entry whose
image source prefers the lazy-load attribute over the standard source
attribute. -/
theorem C7_listing_filters (m : List (String × String)) (a : ListAnchor) :
    (a.fullUrl = base_url ++ "/influencers-nz" → processAnchor m a = m) ∧
    (a.img = none → processAnchor m a = m) ∧
    (∀ (img : ImgTag) (d : String),
       pyStartsWith a.fullUrl base_url = true →
       denylist.contains (pathOf a.fullUrl) = false →
       strContains a.href ("mailto:") = false →
       strContains a.href ("tel:") = false →
       isNavFooter a.parents = false →
       a.img = some img →
       img.dataSrc = some d →
       d ≠ "" →
       processAnchor m a = dictInsert m a.fullUrl (normalizeProto d)) := by
  refine ⟨?_, ?_, ?_⟩
  · intro h
    have hsw : pyStartsWith (base_url ++ "/influencers-nz") base_url = true := by decide
    have hden : pathOf (base_url ++ "/influencers-nz") ∈ denylist := by decide
    unfold processAnchor
    rw [h]
    simp [hsw, hden]
  · intro h
    unfold processAnchor
    split_ifs <;> simp [h]
  · intro img d h1 h2 h3 h4 h5 h6 h7 h8
    have h2m : pathOf a.fullUrl ∉ denylist := by simpa using h2
    unfold processAnchor
    rw [h6]
    simp [pyOr, h1, h2m, h3, h4, h5, h7, h8]

/-- Witness for C7 at an anchor passing every filter, whose image carries
both a lazy-load and a standard source: the lazy-load source wins. -/
theorem C7_listing_filters_witness :
    pyStartsWith (base_url ++ "/talent/x") base_url = true ∧
    processAnchor []
        (ListAnchor.mk ("/talent/x") (base_url ++ "/talent/x") []
          (some (ImgTag.mk (some ("//cdn/i.jpg")) (some ("http://fallback")))))
      = dictInsert [] (base_url ++ "/talent/x") (normalizeProto ("//cdn/i.jpg")) := by
  refine ⟨by decide, ?_⟩
  exact (C7_listing_filters []
    (ListAnchor.mk ("/talent/x") (base_url ++ "/talent/x") []
      (some (ImgTag.mk (some ("//cdn/i.jpg")) (some ("http://fallback")))))).2.2
    (ImgTag.mk (some ("//cdn/i.jpg")) (some ("http://fallback"))) ("//cdn/i.jpg")
    (by decide) (by decide) (by decide) (by decide) (by decide) rfl rfl (by decide)

/-- C9: a successfully fetched page with no level-1 heading still yields a
record whose name is the literal placeholder, rather than a dropped row. -/
theorem C9_missing_heading (url imageUrl : String) (page : ProfilePage)
    (h : page.h1 = none) :
    ∃ r : ProfileRecord,
      processCandidate url imageUrl (FetchOutcome.success page) = some r ∧
      r.name = "Unknown" := by
  refine ⟨extractRecord url imageUrl page, rfl, ?_⟩
  simp [extractRecord, extractName, h]

/-- Witness for C9 at a concrete page without a heading. -/
theorem C9_missing_heading_witness :
    (ProfilePage.mk none [] []).h1 = none ∧
    ∃ r : ProfileRecord,
      processCandidate ("u") ("i") (FetchOutcome.success (ProfilePage.mk none [] []))
          = some r ∧
        r.name = "Unknown" :=
  ⟨rfl, C9_missing_heading ("u") ("i") (ProfilePage.mk none [] []) rfl⟩
